import Mathlib

/-!
Verification of the Citation-Decoder core (pdf_parser.py, citation_analyzer.py,
src/main.py) against its natural-language specification.

The Python code locates citation markers with `re` patterns, deduplicates
matches by `(start, end)` span, slices a fixed-radius context window around
each match, splits the references section, and orchestrates per-citation
analysis calls.  We embed the relevant fragment of Python's `re` backtracking
semantics (literal classes, concatenation, prioritized alternation, greedy
star) as an executable matcher, translate each regular expression from the
source into that syntax, and embed the surrounding Python functions directly.
-/

namespace CitationDecoder

/-! ### A backtracking matcher for the fragment of `re` used by the source

Python's `re` uses leftmost, backtracking, greedy matching.  `RE` covers the
constructs appearing in the source's patterns: character classes, sequencing,
prioritized alternation, and greedy repetition.  Matching is written in
continuation-passing style so alternation and greedy star backtrack exactly
like Python's engine; a fuel argument (decremented at each star unfolding)
keeps the recursion structural. -/

inductive RE where
  | eps : RE
  | cls (p : Char → Bool) : RE
  | seq (a b : RE) : RE
  | alt (a b : RE) : RE
  | star (a : RE) : RE

/-- One layer of the matcher: handles every constructor except that star
nodes are delegated to the handler `sh`. -/
def matFix (sh : RE → List Char → (List Char → Option (List Char)) → Option (List Char)) :
    RE → List Char → (List Char → Option (List Char)) → Option (List Char)
  | .eps, cs, k => k cs
  | .cls _, [], _ => none
  | .cls p, c :: cs, k => if p c then k cs else none
  | .seq a b, cs, k => matFix sh a cs (fun cs1 => matFix sh b cs1 k)
  | .alt a b, cs, k => (matFix sh a cs k).orElse (fun _ => matFix sh b cs k)
  | .star a, cs, k => sh a cs k

/-- Backtracking matcher.  A greedy star first tries one more iteration of its
body (requiring progress, as Python's engine breaks on an empty repetition)
and falls back to the continuation; alternation prefers its left branch, as in
Python. -/
def mat : Nat → RE → List Char → (List Char → Option (List Char)) → Option (List Char)
  | 0, r, cs, k => matFix (fun _ cs1 k1 => k1 cs1) r cs k
  | f + 1, r, cs, k =>
    matFix (fun a cs1 k1 =>
      (mat f a cs1 (fun cs2 =>
        if cs2.length < cs1.length then mat f (.star a) cs2 k1 else none)).orElse
        (fun _ => k1 cs1)) r cs k

/-- Length of the (leftmost, greedy) match of `r` at the start of `cs`,
`none` when `r` does not match there.  The initial fuel comfortably exceeds
the number of star unfoldings any of the source's patterns can perform on
`cs`. -/
def matchLen (r : RE) (cs : List Char) : Option Nat :=
  match mat (16 * (cs.length + 1)) r cs (fun rest => some rest) with
  | some rest => some (cs.length - rest.length)
  | none => none

/-- Scan for successive non-overlapping matches, like `re.finditer`: try each
position left to right and continue after the end of each match. -/
def finditerAux (r : RE) : Nat → List Char → Nat → List (Nat × Nat)
  | 0, _, _ => []
  | f + 1, cs, pos =>
    match matchLen r cs with
    | some L =>
      (pos, pos + L) ::
        (match cs with
         | [] => []
         | _ :: _ => finditerAux r f (cs.drop (max L 1)) (pos + max L 1))
    | none =>
      match cs with
      | [] => []
      | _ :: cs1 => finditerAux r f cs1 (pos + 1)

/-- All match spans of `r` in `cs`, in scan order (`re.finditer`). -/
def finditer (r : RE) (cs : List Char) : List (Nat × Nat) :=
  finditerAux r (cs.length + 1) cs 0

/-! ### Character classes and pattern-building helpers -/

/-- Python `\s` (ASCII range). -/
def pySpace (c : Char) : Bool :=
  c = ' ' || c = '\t' || c = '\n' || c = '\r' || c = '\x0b' || c = '\x0c'

/-- Python `\d` (ASCII range). -/
def pyDigit (c : Char) : Bool := '0' ≤ c && c ≤ '9'

/-- Python `[A-Z]`. -/
def upperAZ (c : Char) : Bool := 'A' ≤ c && c ≤ 'Z'

/-- Python `[a-z]`. -/
def lowerAZ (c : Char) : Bool := 'a' ≤ c && c ≤ 'z'

/-- Python `[A-Za-z\-]`. -/
def alphaHyphen (c : Char) : Bool := upperAZ c || lowerAZ c || c = '-'

/-- A literal character. -/
def chr (c : Char) : RE := .cls (fun x => x = c)

/-- A literal character under `re.IGNORECASE`. -/
def chrCI (c : Char) : RE := .cls (fun x => x.toLower = c.toLower)

/-- Concatenation of a list of patterns. -/
def seqs (rs : List RE) : RE := rs.foldr .seq .eps

/-- A literal string. -/
def strR (s : String) : RE := seqs (s.toList.map chr)

/-- A literal string under `re.IGNORECASE`. -/
def strCI (s : String) : RE := seqs (s.toList.map chrCI)

/-- `r+` (greedy). -/
def plus1 (r : RE) : RE := .seq r (.star r)

/-- `r?` (greedy). -/
def opt (r : RE) : RE := .alt r .eps

/-! ### The citation patterns of `PDFParser.extract_citations`

Each definition is the direct translation of one regular expression from the
source, in the order the source lists them. -/

/-- `(?:[A-Za-z\-]+(?:\s+and\s+|\s*,\s*)?)+` : author-name tokens joined by
"and" or commas. -/
def nameGroup : RE :=
  plus1 (.seq (plus1 (.cls alphaHyphen))
    (opt (.alt (seqs [plus1 (.cls pySpace), strR "and", plus1 (.cls pySpace)])
               (seqs [.star (.cls pySpace), chr ',', .star (.cls pySpace)]))))

/-- `et\s+al\.` -/
def etAl : RE := seqs [strR "et", plus1 (.cls pySpace), strR "al", chr '.']

/-- `(?:,\s*\d{4}(?:[a-z])?)+` : one or more comma-year groups. -/
def yearGroup : RE :=
  plus1 (seqs [chr ',', .star (.cls pySpace),
    .cls pyDigit, .cls pyDigit, .cls pyDigit, .cls pyDigit, opt (.cls lowerAZ)])

/-- Pattern 1: `\((?:[A-Za-z\-]+(?:\s+and\s+|\s*,\s*)?)+(?:et\s+al\.)?(?:,\s*\d{4}(?:[a-z])?)+\)` -/
def patAuthorYear1 : RE := seqs [chr '(', nameGroup, opt etAl, yearGroup, chr ')']

/-- Pattern 2: `\((?:[A-Za-z\-]+(?:\s+and\s+|\s*,\s*)?)+\s+(?:et\s+al\.)\s*(?:,\s*\d{4}(?:[a-z])?)+\)` -/
def patAuthorYear2 : RE :=
  seqs [chr '(', nameGroup, plus1 (.cls pySpace), etAl, .star (.cls pySpace), yearGroup, chr ')']

/-- Pattern 3: `\((?:[A-Za-z\-]+(?:\s+and\s+|\s*,\s*)?)+(?:,\s*\d{4}(?:[a-z])?)+\)` -/
def patAuthorYear3 : RE := seqs [chr '(', nameGroup, yearGroup, chr ')']

/-- `\d+(?:-\d+)?` : a number or a number range. -/
def numItem : RE := .seq (plus1 (.cls pyDigit)) (opt (.seq (chr '-') (plus1 (.cls pyDigit))))

/-- Pattern 4: `\[(\d+(?:-\d+)?(?:,\s*\d+(?:-\d+)?)*)\]` -/
def patBracketList : RE :=
  seqs [chr '[', numItem, .star (seqs [chr ',', .star (.cls pySpace), numItem]), chr ']']

/-- Pattern 5: `\[(\d+)\]` -/
def patBracketNum : RE := seqs [chr '[', plus1 (.cls pyDigit), chr ']']

/-- Pattern 6: `\((\d+)\)` -/
def patParenNum : RE := seqs [chr '(', plus1 (.cls pyDigit), chr ')']

/-- `citation_patterns` from `PDFParser.extract_citations`, in source order
(author-year first, numeric last). -/
def citation_patterns : List RE :=
  [patAuthorYear1, patAuthorYear2, patAuthorYear3, patBracketList, patBracketNum, patParenNum]

/-! ### Slicing and citation extraction -/

/-- Python slice `cs[a:b]` (for `0 ≤ a`, `0 ≤ b`). -/
def pySlice (cs : List Char) (a b : Nat) : List Char := (cs.take b).drop a

/-- One extracted citation: marker text, context window, `(start, end)` span,
mirroring the dictionary built in `extract_citations`. -/
structure Citation where
  citation : List Char
  context : List Char
  position : Nat × Nat
deriving DecidableEq, Repr

/-- Build the citation dictionary for a match span, as in the loop body of
`extract_citations`: `match.group(0)` is exactly `text[start:end]`, and the
context is `text[max(0, start-100) : min(len(text), end+100)]` (natural-number
subtraction is the `max(0, ...)` clamp). -/
def mkCitation (text : List Char) (se : Nat × Nat) : Citation :=
  { citation := pySlice text se.1 se.2
    context := pySlice text (se.1 - 100) (min text.length (se.2 + 100))
    position := se }

/-- The inner loop of `extract_citations`: walk one pattern's matches,
skipping spans already in `seen_positions`, appending a citation record
otherwise.  Returns the updated `(citations, seen_positions)` pair. -/
def processMatches (text : List Char) :
    List (Nat × Nat) → List (Nat × Nat) → List Citation → List Citation × List (Nat × Nat)
  | [], seen, cits => (cits, seen)
  | se :: rest, seen, cits =>
    if se ∈ seen then processMatches text rest seen cits
    else processMatches text rest (se :: seen) (cits ++ [mkCitation text se])

/-- `PDFParser.extract_citations`: run every pattern in order over the text,
deduplicating by span. -/
def extract_citations (text : List Char) : List Citation :=
  (citation_patterns.foldl
    (fun st p => processMatches text (finditer p text) st.2 st.1)
    (([], []) : List Citation × List (Nat × Nat))).1

example : (finditer patBracketNum "ab [1] cd".toList) = [(3, 6)] := by decide
example : (finditer patBracketList "ab [1] cd".toList) = [(3, 6)] := by decide
example : (finditer patAuthorYear3 "see (Smith, 2019) ok".toList) = [(4, 17)] := by decide
example :
    extract_citations "ab [1] cd".toList
      = [{ citation := "[1]".toList, context := "ab [1] cd".toList, position := (3, 6) }] := by
  decide

/-! ### The reference-section splitter (`PDFParser.extract_references_section`) -/

/-- First heading pattern:
`(?:References|Bibliography|Works Cited|Literature Cited)(?:\s|\\n)`, matched
under `re.IGNORECASE` (the second alternative of the tail is the two-character
sequence backslash-`n`, as the source's `r"\\n"` denotes). -/
def headingRE1 : RE :=
  .seq (.alt (strCI "References")
        (.alt (strCI "Bibliography")
         (.alt (strCI "Works Cited") (strCI "Literature Cited"))))
    (.alt (.cls pySpace) (.seq (chr '\\') (chrCI 'n')))

/-- Second heading pattern: `\d+\.\s+(?:References|Bibliography)` under
`re.IGNORECASE`. -/
def headingRE2 : RE :=
  seqs [plus1 (.cls pyDigit), chr '.', plus1 (.cls pySpace),
    .alt (strCI "References") (strCI "Bibliography")]

/-- `ref_patterns` from `extract_references_section`, in source order. -/
def ref_patterns : List RE := [headingRE1, headingRE2]

/-- Next-section heuristic: `\n\s*(?:[A-Z][a-z]+\s+)+\n` (case-sensitive). -/
def nextSectionRE : RE :=
  seqs [chr '\n', .star (.cls pySpace),
    plus1 (seqs [.cls upperAZ, plus1 (.cls lowerAZ), plus1 (.cls pySpace)]),
    chr '\n']

/-- Entry-numbering split pattern of `_parse_references`:
`\n\s*(?:\[\d+\]|\d+\.)\s+`. -/
def refNumberRE : RE :=
  seqs [chr '\n', .star (.cls pySpace),
    .alt (seqs [chr '[', plus1 (.cls pyDigit), chr ']'])
         (.seq (plus1 (.cls pyDigit)) (chr '.')),
    plus1 (.cls pySpace)]

/-- Cut `cs` at the given (increasing, non-overlapping) match spans, keeping
the pieces between them. -/
def splitBySpans (cs : List Char) : Nat → List (Nat × Nat) → List (List Char)
  | base, [] => [cs.drop base]
  | base, (s, e) :: rest => pySlice cs base s :: splitBySpans cs e rest

/-- `re.split(r, cs)` for a pattern without capturing groups. -/
def reSplit (r : RE) (cs : List Char) : List (List Char) :=
  splitBySpans cs 0 (finditer r cs)

/-- Start offset of the leftmost match, like `re.search(...).start()`. -/
def reSearchStart (r : RE) (cs : List Char) : Option Nat :=
  ((finditer r cs).head?).map (fun se => se.1)

/-- Python `str.strip()` (ASCII whitespace). -/
def pyStrip (cs : List Char) : List Char :=
  ((cs.dropWhile pySpace).reverse.dropWhile pySpace).reverse

/-- `PDFParser._parse_references`: split the blob on numbering markers, strip
each piece, and drop pieces that strip to the empty string. -/
def parse_references (references_text : List Char) : List (List Char) :=
  ((reSplit refNumberRE references_text).map pyStrip).filter (fun r => !r.isEmpty)

/-- The pattern loop of `extract_references_section`: for the first heading
pattern that splits the text into more than one piece, take `matches[1]` and
truncate it at the next-section heuristic match, if any. -/
def findReferencesText (text : List Char) : List RE → List Char
  | [] => []
  | p :: ps =>
    let pieces := reSplit p text
    if 1 < pieces.length then
      let rt := pieces.getD 1 []
      match reSearchStart nextSectionRE rt with
      | some st => rt.take st
      | none => rt
    else findReferencesText text ps

/-- `PDFParser.extract_references_section`, observed through the
`self.references` field it sets: the parsed entries when a references blob was
found and non-empty, and the untouched initial `[]` otherwise (the method then
returns `False`). -/
def extract_references_section (text : List Char) : List (List Char) :=
  let rt := findReferencesText text ref_patterns
  if rt.isEmpty then [] else parse_references rt

example :
    extract_references_section
        "...\nReferences\n[1] Smith, J. Paper A.\n[2] Jones, K. Paper B.\nAppendix\n...".toList
      = ["[1] Smith, J. Paper A.".toList, "Jones, K. Paper B.\nAppendix\n...".toList] := by
  decide

/-! ### The per-citation analyzer (`CitationAnalyzer`) -/

/-- A citation record after the analysis step.  The Python code mutates the
citation dictionary in place; the three base keys are always present, the
analysis keys only once the corresponding branch has run. -/
structure Record where
  citation : List Char
  context : List Char
  position : Nat × Nat
  contribution : Option String
  purpose : Option String
  stance : Option String
  raw_analysis : Option String
deriving DecidableEq, Repr

/-- The record corresponding to a not-yet-updated citation dictionary. -/
def baseRecord (c : Citation) : Record :=
  { citation := c.citation, context := c.context, position := c.position,
    contribution := none, purpose := none, stance := none, raw_analysis := none }

/-- Python `str.strip()` on a string. -/
def stripString (s : String) : String := String.mk (pyStrip s.toList)

/-- `CitationAnalyzer.analyze_citation`.  The external service call is
modelled by `svc` (`Except.error m` when the call raises with message `m`,
`Except.ok content` when it returns `content`); `parseJson` models
`json.loads` restricted to string-valued JSON objects, returning `none` when
the text does not parse.  The code strips the response, tries to parse it,
merges the parsed keys on success, installs the "Unable to parse analysis"
placeholders (keeping the stripped text under `raw_analysis`) on parse
failure, and installs the "Error during analysis" placeholders when the call
itself raised. -/
def analyze_citation (c : Citation) (svc : Except String String)
    (parseJson : String → Option (List (String × String))) : Record :=
  match svc with
  | .error e =>
    { baseRecord c with
      contribution := some ("Error during analysis: " ++ e)
      purpose := some "Error"
      stance := some "Error" }
  | .ok content =>
    let result := stripString content
    match parseJson result with
    | some obj =>
      { baseRecord c with
        contribution := obj.lookup "contribution"
        purpose := obj.lookup "purpose"
        stance := obj.lookup "stance" }
    | none =>
      { baseRecord c with
        contribution := some "Unable to parse analysis"
        purpose := some "Unknown"
        stance := some "Unknown"
        raw_analysis := some result }

/-- The indexed loop of `batch_analyze_citations`; `svc i` is the outcome of
the service call for the `i`-th citation. -/
def batchAux (svc : Nat → Except String String)
    (parseJson : String → Option (List (String × String))) :
    Nat → List Citation → List Record
  | _, [] => []
  | i, c :: cs => analyze_citation c (svc i) parseJson :: batchAux svc parseJson (i + 1) cs

/-- `CitationAnalyzer.batch_analyze_citations`: analyze each citation in
order, appending every result. -/
def batch_analyze_citations (citations : List Citation)
    (svc : Nat → Except String String)
    (parseJson : String → Option (List (String × String))) : List Record :=
  batchAux svc parseJson 0 citations

/-! ### The pipeline orchestrator (`CitationDecoder` in `src/main.py`) -/

/-- Values stored in the result dictionaries. -/
inductive Val where
  | s (v : String) : Val
  | strs (v : List String) : Val
  | cits (v : List Record) : Val
  | refs (v : List (List Char)) : Val
  | none : Val
deriving DecidableEq, Repr

/-- `CitationDecoder.process_pdf`.  `extracted` models the external
PDF-to-text conversion (`None` when `extract_text` fails). -/
def process_pdf (extracted : Option (List Char)) (svc : Nat → Except String String)
    (parseJson : String → Option (List (String × String))) : List (String × Val) :=
  match extracted with
  | Option.none => [("error", Val.s "Failed to extract text from PDF")]
  | Option.some text =>
    let citations := extract_citations text
    if citations.isEmpty then
      [("error", Val.s "No citations found in the document")]
    else
      let refs := extract_references_section text
      let analyzed := batch_analyze_citations citations svc parseJson
      [("citations", Val.cits analyzed), ("references", Val.refs refs)]

/-- Resolved paper metadata, as produced by `ArxivClient.search_paper`
(`paper_info.get(key)` for the four keys the orchestrator copies). -/
structure PaperInfo where
  title : Val
  authors : Val
  abstract : Val
  year : Val

/-- Python `dict` assignment `d[k] = v`: replace the value in place if the
key exists, append otherwise. -/
def setKey : List (String × Val) → String × Val → List (String × Val)
  | [], kv => [kv]
  | p :: d, kv => if p.1 = kv.1 then kv :: d else p :: setKey d kv

/-- Python `dict.update`: assign each key of the right dictionary in order. -/
def dictUpdate (d : List (String × Val)) (kvs : List (String × Val)) : List (String × Val) :=
  kvs.foldl setKey d

/-- `CitationDecoder.process_arxiv_paper`.  `paper_info` models the arXiv
metadata lookup, `fetch` the PDF download (`Except.error m` when
`requests.get` raises, `Except.ok status` its status code), and `extracted`
the text conversion of the downloaded bytes, passed through to
`process_pdf`. -/
def process_arxiv_paper (arxiv_id : String) (paper_info : Option PaperInfo)
    (fetch : Except String Nat) (extracted : Option (List Char))
    (svc : Nat → Except String String)
    (parseJson : String → Option (List (String × String))) : List (String × Val) :=
  match paper_info with
  | Option.none => [("error", Val.s ("Could not find paper with arXiv ID: " ++ arxiv_id))]
  | Option.some info =>
    match fetch with
    | .error e => [("error", Val.s ("Error processing arXiv paper: " ++ e))]
    | .ok status =>
      if status = 200 then
        dictUpdate (process_pdf extracted svc parseJson)
          [("title", info.title), ("authors", info.authors),
           ("abstract", info.abstract), ("year", info.year)]
      else
        [("error", Val.s ("Failed to download PDF from arXiv: " ++ toString status))]

/-! ### Properties of the matcher

A successful match consumes a prefix of the input (so match lengths are
bounded by the input length), and a pattern whose first obligation is a
character class consumes at least one character. -/

theorem matFix_some
    {sh : RE → List Char → (List Char → Option (List Char)) → Option (List Char)}
    (H : ∀ a cs (k : List Char → Option (List Char)) res, sh a cs k = some res →
      ∃ cs1, cs1.length ≤ cs.length ∧ k cs1 = some res) :
    ∀ r cs (k : List Char → Option (List Char)) res, matFix sh r cs k = some res →
      ∃ cs1, cs1.length ≤ cs.length ∧ k cs1 = some res := by
  intro r
  induction r with
  | eps =>
    intro cs k res h
    exact ⟨cs, Nat.le_refl _, h⟩
  | cls p =>
    intro cs k res h
    cases cs with
    | nil => simp [matFix] at h
    | cons c cs0 =>
      simp only [matFix] at h
      by_cases hp : p c
      · rw [if_pos hp] at h
        exact ⟨cs0, by simp, h⟩
      · rw [if_neg hp] at h
        exact absurd h (by simp)
  | seq a b iha ihb =>
    intro cs k res h
    simp only [matFix] at h
    obtain ⟨cs1, h1, h2⟩ := iha cs _ res h
    obtain ⟨cs2, h3, h4⟩ := ihb cs1 k res h2
    exact ⟨cs2, Nat.le_trans h3 h1, h4⟩
  | alt a b iha ihb =>
    intro cs k res h
    simp only [matFix] at h
    cases hx : matFix sh a cs k with
    | some v =>
      rw [hx] at h
      simp only [Option.orElse] at h
      exact iha cs k res (by rw [hx, h])
    | none =>
      rw [hx] at h
      simp only [Option.orElse] at h
      exact ihb cs k res h
  | star a ih =>
    intro cs k res h
    simp only [matFix] at h
    exact H a cs k res h

theorem starH_some (f : Nat)
    (hmat : ∀ r cs (k : List Char → Option (List Char)) res, mat f r cs k = some res →
      ∃ cs1, cs1.length ≤ cs.length ∧ k cs1 = some res) :
    ∀ a cs (k : List Char → Option (List Char)) res,
      ((mat f a cs (fun cs2 =>
          if cs2.length < cs.length then mat f (.star a) cs2 k else none)).orElse
        (fun _ => k cs)) = some res →
      ∃ cs1, cs1.length ≤ cs.length ∧ k cs1 = some res := by
  intro a cs k res h
  cases hx : mat f a cs (fun cs2 =>
      if cs2.length < cs.length then mat f (.star a) cs2 k else none) with
  | none =>
    rw [hx] at h
    simp only [Option.orElse] at h
    exact ⟨cs, Nat.le_refl _, h⟩
  | some v =>
    rw [hx] at h
    simp only [Option.orElse] at h
    obtain ⟨cs1, h1, h2⟩ := hmat a cs _ v hx
    by_cases hc : cs1.length < cs.length
    · rw [if_pos hc] at h2
      obtain ⟨cs2, h3, h4⟩ := hmat (.star a) cs1 k v h2
      exact ⟨cs2, Nat.le_trans h3 (Nat.le_of_lt hc), by rw [h4, h]⟩
    · rw [if_neg hc] at h2
      exact absurd h2 (by simp)

theorem mat_some : ∀ (fuel : Nat), ∀ r cs (k : List Char → Option (List Char)) res,
    mat fuel r cs k = some res → ∃ cs1, cs1.length ≤ cs.length ∧ k cs1 = some res := by
  intro fuel
  induction fuel with
  | zero =>
    intro r cs k res h
    simp only [mat] at h
    exact matFix_some (fun a cs k res h => ⟨cs, Nat.le_refl _, h⟩) r cs k res h
  | succ f ih =>
    intro r cs k res h
    simp only [mat] at h
    exact matFix_some (starH_some f ih) r cs k res h

theorem matFix_seq_cls
    {sh : RE → List Char → (List Char → Option (List Char)) → Option (List Char)}
    (H : ∀ a cs (k : List Char → Option (List Char)) res, sh a cs k = some res →
      ∃ cs1, cs1.length ≤ cs.length ∧ k cs1 = some res)
    {p : Char → Bool} {b : RE} {cs : List Char}
    {k : List Char → Option (List Char)} {res : List Char}
    (h : matFix sh (.seq (.cls p) b) cs k = some res) :
    ∃ cs1, cs1.length < cs.length ∧ k cs1 = some res := by
  simp only [matFix] at h
  cases cs with
  | nil => simp [matFix] at h
  | cons c cs0 =>
    simp only [matFix] at h
    by_cases hp : p c
    · rw [if_pos hp] at h
      obtain ⟨cs1, h1, h2⟩ := matFix_some H b cs0 k res h
      exact ⟨cs1, Nat.lt_of_le_of_lt h1 (by simp), h2⟩
    · rw [if_neg hp] at h
      exact absurd h (by simp)

theorem mat_seq_cls {fuel : Nat} {p : Char → Bool} {b : RE} {cs : List Char}
    {k : List Char → Option (List Char)} {res : List Char}
    (h : mat fuel (.seq (.cls p) b) cs k = some res) :
    ∃ cs1, cs1.length < cs.length ∧ k cs1 = some res := by
  cases fuel with
  | zero =>
    simp only [mat] at h
    exact matFix_seq_cls (fun a cs k res h => ⟨cs, Nat.le_refl _, h⟩) h
  | succ f =>
    simp only [mat] at h
    exact matFix_seq_cls (starH_some f (mat_some f)) h

theorem matchLen_le {r : RE} {cs : List Char} {L : Nat} (h : matchLen r cs = some L) :
    L ≤ cs.length := by
  unfold matchLen at h
  cases hx : mat (16 * (cs.length + 1)) r cs (fun rest => some rest) with
  | none => rw [hx] at h; exact absurd h (by simp)
  | some rest =>
    rw [hx] at h
    simp only [Option.some.injEq] at h
    omega

theorem matchLen_head_pos {p : Char → Bool} {b : RE} {cs : List Char} {L : Nat}
    (h : matchLen (.seq (.cls p) b) cs = some L) : 1 ≤ L := by
  unfold matchLen at h
  cases hx : mat (16 * (cs.length + 1)) (.seq (.cls p) b) cs (fun rest => some rest) with
  | none => rw [hx] at h; exact absurd h (by simp)
  | some rest =>
    rw [hx] at h
    simp only [Option.some.injEq] at h
    obtain ⟨cs1, h1, h2⟩ := mat_seq_cls hx
    simp only [Option.some.injEq] at h2
    subst h2
    omega

/-! ### Span bounds for `finditer` -/

theorem finditerAux_mem {r : RE}
    (hr : ∀ cs L, matchLen r cs = some L → 1 ≤ L) :
    ∀ (fuel : Nat) (cs : List Char) (pos s e : Nat),
      (s, e) ∈ finditerAux r fuel cs pos →
      pos ≤ s ∧ s < e ∧ e ≤ pos + cs.length := by
  intro fuel
  induction fuel with
  | zero =>
    intro cs pos s e h
    simp [finditerAux] at h
  | succ f ih =>
    intro cs pos s e h
    cases hm : matchLen r cs with
    | some L =>
      have hL1 : 1 ≤ L := hr cs L hm
      have hL2 : L ≤ cs.length := matchLen_le hm
      have hmax : max L 1 = L := Nat.max_eq_left hL1
      cases cs with
      | nil => simp at hL2; omega
      | cons c cs0 =>
        simp only [finditerAux, hm, hmax, List.mem_cons, Prod.mk.injEq] at h
        rcases h with ⟨hs, he⟩ | h
        · omega
        · have hb := ih _ _ s e h
          have hdl : ((c :: cs0).drop L).length = (c :: cs0).length - L :=
            List.length_drop _ _
          simp only [List.length_cons] at hdl hL2 ⊢
          omega
    | none =>
      cases cs with
      | nil => simp [finditerAux, hm] at h
      | cons c cs0 =>
        simp only [finditerAux, hm] at h
        have hb := ih cs0 (pos + 1) s e h
        simp only [List.length_cons]
        omega

/-! ### The span-level deduplication filter

`dedupSpans` is the effect of `extract_citations`' `seen_positions` check on
the stream of match spans: keep a span when it has not been seen, skip it
otherwise. -/

def dedupSpans (seen : List (Nat × Nat)) : List (Nat × Nat) → List (Nat × Nat)
  | [] => []
  | x :: xs => if x ∈ seen then dedupSpans seen xs else x :: dedupSpans (x :: seen) xs

/-- The spec's description of the Deduplicator: keep the first occurrence of
each distinct span, deleting the later duplicates. -/
def dedupFirstSeen : List (Nat × Nat) → List (Nat × Nat)
  | [] => []
  | x :: xs => x :: dedupFirstSeen (xs.filter (fun y => decide (y ≠ x)))
termination_by l => l.length
decreasing_by
  simp only [List.length_cons]
  exact Nat.lt_succ_of_le (List.length_filter_le _ _)

/-- All match spans produced by every pattern, in priority order — the input
stream of the Deduplicator. -/
def rawSpans (text : List Char) : List (Nat × Nat) :=
  (citation_patterns.map (fun p => finditer p text)).flatten

theorem processMatches_fst (text : List Char) (spans : List (Nat × Nat)) :
    ∀ (seen : List (Nat × Nat)) (cits : List Citation),
      (processMatches text spans seen cits).1
        = cits ++ (dedupSpans seen spans).map (mkCitation text) := by
  induction spans with
  | nil => intro seen cits; simp [processMatches, dedupSpans]
  | cons x xs ih =>
    intro seen cits
    by_cases hx : x ∈ seen
    · simp [processMatches, dedupSpans, hx, ih]
    · simp [processMatches, dedupSpans, hx, ih]

theorem processMatches_snd (text : List Char) (spans : List (Nat × Nat)) :
    ∀ (seen : List (Nat × Nat)) (cits : List Citation),
      (processMatches text spans seen cits).2
        = (dedupSpans seen spans).reverse ++ seen := by
  induction spans with
  | nil => intro seen cits; simp [processMatches, dedupSpans]
  | cons x xs ih =>
    intro seen cits
    by_cases hx : x ∈ seen
    · simp [processMatches, dedupSpans, hx, ih]
    · simp [processMatches, dedupSpans, hx, ih]

theorem dedupSpans_append (A : List (Nat × Nat)) :
    ∀ (B seen : List (Nat × Nat)),
      dedupSpans seen (A ++ B)
        = dedupSpans seen A ++ dedupSpans ((dedupSpans seen A).reverse ++ seen) B := by
  induction A with
  | nil => intro B seen; simp [dedupSpans]
  | cons x xs ih =>
    intro B seen
    rw [List.cons_append]
    by_cases hx : x ∈ seen
    · simp only [dedupSpans, if_pos hx]
      exact ih B seen
    · simp only [dedupSpans, if_neg hx]
      rw [ih B (x :: seen)]
      simp only [List.reverse_cons, List.append_assoc, List.singleton_append,
        List.cons_append, List.nil_append]

theorem extract_loop (text : List Char) (ps : List RE) :
    ∀ (st : List Citation × List (Nat × Nat)),
      (ps.foldl (fun st p => processMatches text (finditer p text) st.2 st.1) st).1
        = st.1 ++ (dedupSpans st.2 ((ps.map (fun p => finditer p text)).flatten)).map
            (mkCitation text) := by
  induction ps with
  | nil => intro st; simp [dedupSpans]
  | cons p ps ih =>
    intro st
    simp only [List.foldl_cons, List.map_cons, List.flatten_cons]
    rw [ih, processMatches_fst, processMatches_snd, dedupSpans_append]
    simp [List.append_assoc]

/-- `extract_citations` is exactly: deduplicate the raw span stream by
first-seen span, then build each citation record from its span. -/
theorem extract_citations_eq (text : List Char) :
    extract_citations text = (dedupSpans [] (rawSpans text)).map (mkCitation text) := by
  unfold extract_citations rawSpans
  rw [extract_loop]
  simp

theorem dedupSpans_subset (l : List (Nat × Nat)) :
    ∀ (seen : List (Nat × Nat)) {y : Nat × Nat}, y ∈ dedupSpans seen l → y ∈ l := by
  induction l with
  | nil => intro seen y h; simp [dedupSpans] at h
  | cons x xs ih =>
    intro seen y h
    by_cases hx : x ∈ seen
    · simp only [dedupSpans, if_pos hx] at h
      exact List.mem_cons_of_mem _ (ih seen h)
    · simp only [dedupSpans, if_neg hx, List.mem_cons] at h
      rcases h with rfl | h
      · exact List.mem_cons_self _ _
      · exact List.mem_cons_of_mem _ (ih (x :: seen) h)

theorem dedupSpans_not_seen (l : List (Nat × Nat)) :
    ∀ (seen : List (Nat × Nat)) {y : Nat × Nat}, y ∈ dedupSpans seen l → y ∉ seen := by
  induction l with
  | nil => intro seen y h; simp [dedupSpans] at h
  | cons x xs ih =>
    intro seen y h
    by_cases hx : x ∈ seen
    · simp only [dedupSpans, if_pos hx] at h
      exact ih seen h
    · simp only [dedupSpans, if_neg hx, List.mem_cons] at h
      rcases h with rfl | h
      · exact hx
      · intro hc
        exact ih (x :: seen) h (List.mem_cons_of_mem _ hc)

theorem dedupSpans_nodup (l : List (Nat × Nat)) :
    ∀ (seen : List (Nat × Nat)), (dedupSpans seen l).Nodup := by
  induction l with
  | nil => intro seen; simp [dedupSpans]
  | cons x xs ih =>
    intro seen
    by_cases hx : x ∈ seen
    · simp only [dedupSpans, if_pos hx]
      exact ih seen
    · simp only [dedupSpans, if_neg hx, List.nodup_cons]
      refine ⟨fun hc => ?_, ih (x :: seen)⟩
      exact dedupSpans_not_seen xs (x :: seen) hc (List.mem_cons_self _ _)

theorem dedupSpans_noop (l : List (Nat × Nat)) :
    ∀ (seen : List (Nat × Nat)), l.Nodup → (∀ x ∈ l, x ∉ seen) →
      dedupSpans seen l = l := by
  induction l with
  | nil => intro seen _ _; rfl
  | cons x xs ih =>
    intro seen hn hs
    have hx : x ∉ seen := hs x (List.mem_cons_self _ _)
    simp only [dedupSpans, if_neg hx]
    rw [ih (x :: seen) (List.Nodup.of_cons hn)]
    intro y hy
    simp only [List.mem_cons, not_or]
    exact ⟨fun hc => (List.nodup_cons.1 hn).1 (hc ▸ hy), hs y (List.mem_cons_of_mem _ hy)⟩

/-- The loop's filter coincides with the spec's first-seen deduplication. -/
theorem dedupSpans_eq_firstSeen :
    ∀ (n : Nat) (l seen : List (Nat × Nat)), l.length ≤ n →
      dedupSpans seen l = dedupFirstSeen (l.filter (fun y => decide (y ∉ seen))) := by
  intro n
  induction n with
  | zero =>
    intro l seen h
    rw [List.length_eq_zero.1 (Nat.le_zero.1 h)]
    simp [dedupSpans, dedupFirstSeen]
  | succ n ih =>
    intro l seen h
    cases l with
    | nil => simp [dedupSpans, dedupFirstSeen]
    | cons x xs =>
      simp only [List.length_cons, Nat.succ_le_succ_iff] at h
      by_cases hx : x ∈ seen
      · simp only [dedupSpans, if_pos hx, List.filter_cons, decide_eq_true_eq]
        rw [if_neg (by simp [hx])]
        exact ih xs seen h
      · simp only [dedupSpans, if_neg hx, List.filter_cons]
        rw [if_pos (by simp [hx])]
        simp only [dedupFirstSeen]
        congr 1
        rw [ih xs (x :: seen) h, List.filter_filter]
        congr 1
        apply List.filter_congr
        intro y _
        rcases Decidable.em (y = x) with h1 | h1 <;>
          rcases Decidable.em (y ∈ seen) with h2 | h2 <;>
            simp [List.mem_cons, h1, h2]

/-! ### Slices are substrings -/

theorem pySlice_isInfix (cs : List Char) (a b : Nat) : pySlice cs a b <:+: cs :=
  List.IsInfix.trans ( List.IsSuffix.isInfix ( List.drop_suffix _ _))
    ( List.IsPrefix.isInfix ( List.take_prefix _ _))

theorem pySlice_inner (cs : List Char) {a s e b : Nat}
    (h1 : a ≤ s) (h0 : s ≤ e) (h2 : e ≤ b) :
    pySlice cs s e = ((pySlice cs a b).drop (s - a)).take (e - s) := by
  unfold pySlice
  have hsum : a + (s - a) = s := by omega
  have hmin : min (e - s) (b - s) = e - s := by omega
  rw [List.drop_drop, hsum, List.drop_take, List.drop_take, List.take_take, hmin]

theorem pySlice_inner_isInfix (cs : List Char) {a s e b : Nat}
    (h1 : a ≤ s) (h0 : s ≤ e) (h2 : e ≤ b) :
    pySlice cs s e <:+: pySlice cs a b := by
  rw [pySlice_inner cs h1 h0 h2]
  exact List.IsInfix.trans ( List.IsPrefix.isInfix ( List.take_prefix _ _))
    ( List.IsSuffix.isInfix ( List.drop_suffix _ _))

/-! ### Every extracted citation comes from a raw match span -/

theorem mem_extract_citations {text : List Char} {c : Citation}
    (h : c ∈ extract_citations text) :
    ∃ se, se ∈ rawSpans text ∧ c = mkCitation text se := by
  rw [extract_citations_eq] at h
  obtain ⟨se, hse, rfl⟩ := List.mem_map.1 h
  exact ⟨se, dedupSpans_subset _ _ hse, rfl⟩

/-- Every pattern in `citation_patterns` begins with a mandatory character
class (its opening parenthesis or bracket), so all its matches are
non-empty. -/
theorem citation_patterns_headed :
    ∀ p ∈ citation_patterns, ∀ (cs : List Char) (L : Nat), matchLen p cs = some L → 1 ≤ L := by
  intro p hp
  simp only [citation_patterns, List.mem_cons, List.not_mem_nil, or_false] at hp
  rcases hp with rfl | rfl | rfl | rfl | rfl | rfl
  all_goals exact fun cs L h => matchLen_head_pos h

theorem rawSpans_bounds {text : List Char} {s e : Nat} (h : (s, e) ∈ rawSpans text) :
    s < e ∧ e ≤ text.length := by
  unfold rawSpans at h
  rw [List.mem_flatten] at h
  obtain ⟨l, hl, hmem⟩ := h
  rw [List.mem_map] at hl
  obtain ⟨p, hp, rfl⟩ := hl
  unfold finditer at hmem
  have hb := finditerAux_mem (citation_patterns_headed p hp) (text.length + 1) text 0 s e hmem
  omega

theorem extract_positions (text : List Char) :
    (extract_citations text).map (fun c => c.position) = dedupSpans [] (rawSpans text) := by
  rw [extract_citations_eq, List.map_map]
  have : ((fun c => Citation.position c) ∘ mkCitation text) = fun se => se := by
    funext se
    rfl
  rw [this, List.map_id']

/-! ### Claim theorems -/

/-- Claim C4: for every document text, every citation match produced by the
marker matcher satisfies `0 ≤ startOffset < endOffset ≤ len(text)`, the
offsets being character positions into the document text. -/
theorem citation_span_bounds :
    ∀ (text : List Char) (c : Citation), c ∈ extract_citations text →
      0 ≤ c.position.1 ∧ c.position.1 < c.position.2 ∧ c.position.2 ≤ text.length := by
  intro text c h
  obtain ⟨se, hse, rfl⟩ := mem_extract_citations h
  obtain ⟨s, e⟩ := se
  have hb := rawSpans_bounds hse
  exact ⟨Nat.zero_le _, hb.1, hb.2⟩

/-- Witness for C4 at the document "ab [1] cd", whose single match is the
numeric marker at span (3, 6). -/
theorem citation_span_bounds_witness :
    0 ≤ (3 : Nat) ∧ 3 < 6 ∧ 6 ≤ ("ab [1] cd".toList).length :=
  citation_span_bounds "ab [1] cd".toList
    { citation := "[1]".toList, context := "ab [1] cd".toList, position := (3, 6) }
    (by decide)

set_option maxRecDepth 100000 in
/-- Claim C1 counterexample: in a 203-character document whose only match is
"[1]" at offset 100, the context window is the whole document, of length
203 > 200 — the window is 100 characters before the start plus 100 after the
end plus the marker itself, so its length exceeds 2 × W. -/
theorem context_window_claim_cex :
    ¬ ∀ c ∈ extract_citations
        (List.replicate 100 'x' ++ "[1]".toList ++ List.replicate 100 'x'),
        c.context.length ≤ 200 := by
  decide

/-- Claim C1 (amended): the context window has length at most
`2 × W + (endOffset - startOffset)` — 200 plus the marker's length — and
contains the matched marker text as a substring. -/
theorem context_window_amended :
    ∀ (text : List Char) (c : Citation), c ∈ extract_citations text →
      c.context.length ≤ 200 + (c.position.2 - c.position.1) ∧
      c.citation <:+: c.context := by
  intro text c h
  obtain ⟨se, hse, rfl⟩ := mem_extract_citations h
  obtain ⟨s, e⟩ := se
  obtain ⟨hlt, hle⟩ := rawSpans_bounds hse
  constructor
  · show (pySlice text (s - 100) (min text.length (e + 100))).length ≤ 200 + (e - s)
    unfold pySlice
    rw [List.length_drop, List.length_take]
    omega
  · show pySlice text s e <:+: pySlice text (s - 100) (min text.length (e + 100))
    exact pySlice_inner_isInfix text (by omega) (by omega) (by omega)

/-- Witness for the amended C1 at the document "xy [2] zw". -/
theorem context_window_amended_witness :
    ("xy [2] zw".toList).length ≤ 200 + (6 - 3) ∧ "[2]".toList <:+: "xy [2] zw".toList :=
  context_window_amended "xy [2] zw".toList
    { citation := "[2]".toList, context := "xy [2] zw".toList, position := (3, 6) }
    (by decide)

/-- Claim C9: the context window always clips to the document (it is a
contiguous substring of the text, so it never runs past index 0 or the
document's length); in particular a match at offset 5 with W = 100 yields a
window starting at offset 0 — for "abcd [7] tail" the single match "[7]" at
span (5, 8) gets the whole document as its window. -/
theorem context_window_clips :
    (∀ (text : List Char) (c : Citation), c ∈ extract_citations text →
      c.context <:+: text) ∧
    (extract_citations "abcd [7] tail".toList).map (fun c => c.context)
      = ["abcd [7] tail".toList] := by
  constructor
  · intro text c h
    obtain ⟨se, hse, rfl⟩ := mem_extract_citations h
    exact pySlice_isInfix text _ _
  · decide

/-- Witness for C9's universal part at the document "abcd [7] tail". -/
theorem context_window_clips_witness :
    "abcd [7] tail".toList <:+: "abcd [7] tail".toList :=
  context_window_clips.1 "abcd [7] tail".toList
    { citation := "[7]".toList, context := "abcd [7] tail".toList, position := (5, 8) }
    (by decide)

/-- Claim C3: for every document, the deduplicated output has exactly one
match per distinct `(start, end)` span — its span list is duplicate-free and
equals the first-seen deduplication of the raw span stream produced by all
patterns in priority order; in particular for "ab [1] cd", whose span (3, 6)
is produced by both numeric bracket patterns, the raw stream holds that span
twice but exactly one citation is produced. -/
theorem dedup_one_per_span :
    (∀ text : List Char,
      ((extract_citations text).map (fun c => c.position)).Nodup ∧
        (extract_citations text).map (fun c => c.position) = dedupFirstSeen (rawSpans text)) ∧
    (rawSpans "ab [1] cd".toList).count (3, 6) = 2 ∧
    (extract_citations "ab [1] cd".toList).length = 1 := by
  refine ⟨fun text => ?_, by decide, by decide⟩
  have hpos := extract_positions text
  constructor
  · rw [hpos]
    exact dedupSpans_nodup _ _
  · rw [hpos, dedupSpans_eq_firstSeen (rawSpans text).length _ [] (Nat.le_refl _)]
    congr 1
    simp

/-- Claim C8: the span-level deduplication filter is idempotent — applied to
its own output it returns it unchanged — and `extract_citations` output is
already deduplicated, so a second pass over its span list changes nothing.
(Determinism is immediate: the filter is a pure function.) -/
theorem dedup_idempotent :
    (∀ l : List (Nat × Nat), dedupSpans [] (dedupSpans [] l) = dedupSpans [] l) ∧
    (∀ text : List Char,
      dedupSpans [] ((extract_citations text).map (fun c => c.position))
        = (extract_citations text).map (fun c => c.position)) := by
  have hid : ∀ l : List (Nat × Nat), dedupSpans [] (dedupSpans [] l) = dedupSpans [] l := by
    intro l
    exact dedupSpans_noop _ [] (dedupSpans_nodup l []) (fun x _ hc => List.not_mem_nil x hc)
  refine ⟨hid, fun text => ?_⟩
  rw [extract_positions text]
  exact hid _

/-- Claim C2 counterexample: on the spec's example document the splitter does
not return ["Smith, J. Paper A.", "Jones, K. Paper B."] — the split pattern
only fires on numbering markers preceded by a newline, so the first entry
keeps its "[1] " marker, and the next-section heuristic does not match
"\nAppendix\n...", so the Appendix content stays in the last entry. -/
theorem references_split_claim_cex :
    extract_references_section
        "...\nReferences\n[1] Smith, J. Paper A.\n[2] Jones, K. Paper B.\nAppendix\n...".toList
      ≠ ["Smith, J. Paper A.".toList, "Jones, K. Paper B.".toList] := by
  decide

/-- Claim C2 (amended): on that document the splitter returns exactly
["[1] Smith, J. Paper A.", "Jones, K. Paper B.\nAppendix\n..."]: the leading
numbering marker of the first entry is not stripped and the "Appendix"
content is included in the final entry. -/
theorem references_split_actual :
    extract_references_section
        "...\nReferences\n[1] Smith, J. Paper A.\n[2] Jones, K. Paper B.\nAppendix\n...".toList
      = ["[1] Smith, J. Paper A.".toList,
         "Jones, K. Paper B.\nAppendix\n...".toList] := by
  decide

/-- Claim C5 counterexample: when the service's non-JSON response carries
surrounding whitespace, the text preserved under `raw_analysis` is the
stripped response, not the verbatim response text. -/
theorem analyze_raw_text_cex :
    (analyze_citation { citation := [], context := [], position := (0, 0) }
        (Except.ok "  bad json  ") (fun _ => Option.none)).raw_analysis
      = some "bad json" ∧ ("bad json" : String) ≠ "  bad json  " := by
  constructor
  · decide
  · decide

/-- Claim C5 (amended): per-citation analysis degrades instead of raising —
when the (stripped) service response does not parse as JSON the record gets
contribution "Unable to parse analysis", purpose "Unknown", stance "Unknown"
and the whitespace-stripped response text under `raw_analysis`; when the call
itself errors with message m the record gets contribution
"Error during analysis: " ++ m, purpose "Error", stance "Error". -/
theorem analyze_citation_degrades :
    ∀ (c : Citation) (parseJson : String → Option (List (String × String))) (t m : String),
      (parseJson (stripString t) = Option.none →
        analyze_citation c (Except.ok t) parseJson =
          { baseRecord c with
            contribution := some "Unable to parse analysis"
            purpose := some "Unknown"
            stance := some "Unknown"
            raw_analysis := some (stripString t) }) ∧
      (analyze_citation c (Except.error m) parseJson =
        { baseRecord c with
          contribution := some ("Error during analysis: " ++ m)
          purpose := some "Error"
          stance := some "Error" }) := by
  intro c parseJson t m
  constructor
  · intro hp
    simp only [analyze_citation]
    rw [hp]
  · rfl

/-- Witness for the amended C5, exercising both degradation branches at
concrete inputs. -/
theorem analyze_citation_degrades_witness :
    (analyze_citation { citation := [], context := [], position := (0, 0) }
        (Except.ok "oops") (fun _ => Option.none) =
      { baseRecord { citation := [], context := [], position := (0, 0) } with
        contribution := some "Unable to parse analysis"
        purpose := some "Unknown"
        stance := some "Unknown"
        raw_analysis := some (stripString "oops") }) ∧
    (analyze_citation { citation := [], context := [], position := (0, 0) }
        (Except.error "boom") (fun _ => Option.none) =
      { baseRecord { citation := [], context := [], position := (0, 0) } with
        contribution := some ("Error during analysis: " ++ "boom")
        purpose := some "Error"
        stance := some "Error" }) :=
  ⟨(analyze_citation_degrades _ (fun _ => Option.none) "oops" "boom").1 rfl,
   (analyze_citation_degrades _ (fun _ => Option.none) "oops" "boom").2⟩

/-- Claim C6: when text extraction succeeds but no pattern produces any
match, the orchestrator returns the explicit "No citations found" error
dictionary — an error-valued result, not an exception. -/
theorem no_citations_error_result :
    ∀ (text : List Char) (svc : Nat → Except String String)
      (parseJson : String → Option (List (String × String))),
      extract_citations text = [] →
      process_pdf (some text) svc parseJson
        = [("error", Val.s "No citations found in the document")] := by
  intro text svc parseJson h
  simp [process_pdf, h]

/-- Witness for C6 at a document with no citation patterns at all. -/
theorem no_citations_error_result_witness :
    process_pdf (some "hello world".toList) (fun _ => Except.error "down")
        (fun _ => Option.none)
      = [("error", Val.s "No citations found in the document")] :=
  no_citations_error_result "hello world".toList _ _ (by decide)

theorem batchAux_spec (svc : Nat → Except String String)
    (parseJson : String → Option (List (String × String))) :
    ∀ (cits : List Citation) (j : Nat),
      (batchAux svc parseJson j cits).length = cits.length ∧
      ∀ i, (h : i < cits.length) →
        (batchAux svc parseJson j cits)[i]?
          = some (analyze_citation cits[i] (svc (j + i)) parseJson) := by
  intro cits
  induction cits with
  | nil =>
    intro j
    exact ⟨rfl, fun i h => absurd h (by simp)⟩
  | cons c cs ih =>
    intro j
    refine ⟨by simp [batchAux, (ih (j + 1)).1], ?_⟩
    intro i h
    cases i with
    | zero => simp [batchAux]
    | succ i1 =>
      simp only [batchAux, List.getElem?_cons_succ]
      rw [(ih (j + 1)).2 i1 (by simpa using h)]
      have heq : j + 1 + i1 = j + (i1 + 1) := by omega
      rw [heq]
      rfl

/-- Claim C7: batch analysis returns exactly one result per input record, in
input (discovery) order — the i-th output is the analysis of the i-th input
against that call's own service outcome — so an error outcome for one record
(absorbed by `analyze_citation`) never drops later records. -/
theorem batch_preserves_order :
    ∀ (cits : List Citation) (svc : Nat → Except String String)
      (parseJson : String → Option (List (String × String))),
      (batch_analyze_citations cits svc parseJson).length = cits.length ∧
      ∀ i, (h : i < cits.length) →
        (batch_analyze_citations cits svc parseJson)[i]?
          = some (analyze_citation cits[i] (svc i) parseJson) := by
  intro cits svc parseJson
  refine ⟨(batchAux_spec svc parseJson cits 0).1, fun i h => ?_⟩
  have := (batchAux_spec svc parseJson cits 0).2 i h
  rwa [Nat.zero_add] at this

/-- Witness for C7: a two-record batch whose first analysis call errors still
yields two results, the second being the ordinary analysis of the second
record. -/
theorem batch_preserves_order_witness :
    (batch_analyze_citations
        [{ citation := "[1]".toList, context := "a [1] b".toList, position := (2, 5) },
         { citation := "[2]".toList, context := "c [2] d".toList, position := (2, 5) }]
        (fun i => if i = 0 then Except.error "boom" else Except.ok "fine")
        (fun _ => Option.none)).length = 2 ∧
    (batch_analyze_citations
        [{ citation := "[1]".toList, context := "a [1] b".toList, position := (2, 5) },
         { citation := "[2]".toList, context := "c [2] d".toList, position := (2, 5) }]
        (fun i => if i = 0 then Except.error "boom" else Except.ok "fine")
        (fun _ => Option.none))[1]?
      = some (analyze_citation
          { citation := "[2]".toList, context := "c [2] d".toList, position := (2, 5) }
          ((fun i => if i = 0 then Except.error "boom" else Except.ok "fine") 1)
          (fun _ => Option.none)) :=
  ⟨(batch_preserves_order _ _ _).1,
   (batch_preserves_order
      [{ citation := "[1]".toList, context := "a [1] b".toList, position := (2, 5) },
       { citation := "[2]".toList, context := "c [2] d".toList, position := (2, 5) }]
      (fun i => if i = 0 then Except.error "boom" else Except.ok "fine")
      (fun _ => Option.none)).2 1 (by decide)⟩

/-- Claim C10: when metadata resolution and the download succeed but the
delegated PDF processing returns an error dictionary, the orchestrator still
merges the resolved metadata onto it, so the caller receives a dictionary
holding both the "error" entry and the title/authors/abstract/year
entries. -/
theorem arxiv_error_metadata_merge :
    ∀ (arxiv_id : String) (info : PaperInfo) (extracted : Option (List Char))
      (svc : Nat → Except String String)
      (parseJson : String → Option (List (String × String))) (m : String),
      process_pdf extracted svc parseJson = [("error", Val.s m)] →
      process_arxiv_paper arxiv_id (some info) (Except.ok 200) extracted svc parseJson
        = [("error", Val.s m), ("title", info.title), ("authors", info.authors),
           ("abstract", info.abstract), ("year", info.year)] := by
  intro arxiv_id info extracted svc parseJson m h
  simp only [process_arxiv_paper, if_pos rfl, h]
  simp [dictUpdate, setKey]

/-- Witness for C10: a paper whose PDF text has no citations, so the
delegated processing yields the no-citations error, merged with the resolved
metadata. -/
theorem arxiv_error_metadata_merge_witness :
    process_arxiv_paper "2101.00001"
        (some { title := Val.s "T", authors := Val.strs ["A"],
                abstract := Val.s "Ab", year := Val.s "2021" })
        (Except.ok 200) (some "hello".toList)
        (fun _ => Except.error "down") (fun _ => Option.none)
      = [("error", Val.s "No citations found in the document"),
         ("title", Val.s "T"), ("authors", Val.strs ["A"]),
         ("abstract", Val.s "Ab"), ("year", Val.s "2021")] :=
  arxiv_error_metadata_merge "2101.00001" _ _ _ _
    "No citations found in the document" (by decide)

end CitationDecoder
